import Mathlib

/-!
Verification development for the contract-filler CLI's data ingestion and
normalization pipeline (`contractfillercli.py`).

The Python source is embedded shallowly:

* Python dicts become insertion-ordered association lists (`Rec`), with
  `setKey` reproducing Python's update-in-place / append-at-end semantics.
* Python scalar values become the inductive `Value`; Python truthiness
  becomes `truthy`.
* `read_data`'s behaviour is captured by `RunResult`: what the generator
  yields to a consumer, the materialized `out_rows` list, the in-memory
  `invalid_rows` list, the flushed sink file, the generator's return value
  (the value of the final `StopIteration`, which ordinary iteration never
  observes), log messages, and whether an exception escapes the call.
* External libraries (`csv`, `openpyxl`, `json`, `unicodedata`, `pathlib`)
  are modelled at their interface: a `Source` is the already-parsed content
  the dispatched reader would obtain, `json.loads` results are supplied as
  data on each JSONL line, and the Unicode NFKD decomposition table is
  embedded for the characters exercised here.
-/

namespace ContractFiller

/-- A Python scalar value as the pipeline sees it.  `vStrList` models a
Python list of strings (used for the sink's reserved error field and for
JSON arrays of strings); `vDate` models a `datetime.datetime` at midnight. -/
inductive Value where
  | vNone : Value
  | vBool : Bool → Value
  | vInt : Int → Value
  | vStr : String → Value
  | vDate : Nat → Nat → Nat → Value
  | vStrList : List String → Value
deriving DecidableEq, Repr

/-- Python truthiness (`bool(v)`) for the values above: `None`, `False`,
`0`, `""` and `[]` are falsy; a `datetime` is always truthy. -/
def truthy : Value → Bool
  | .vNone => false
  | .vBool b => b
  | .vInt n => n != 0
  | .vStr s => s ≠ ""
  | .vDate _ _ _ => true
  | .vStrList xs => ¬ xs.isEmpty

/-- A Python dict as an insertion-ordered association list. -/
abbrev Rec := List (String × Value)

/-- `d.get(k)` / `d[k]` on an insertion-ordered association list. -/
def lookupA {α : Type} : List (String × α) → String → Option α
  | [], _ => none
  | (k2, v) :: t, k => if k2 = k then some v else lookupA t k

/-- `d[k] = v` on a Python dict: an existing key keeps its position and
gets the new value, a fresh key is appended at the end. -/
def setKey {α : Type} : List (String × α) → String → α → List (String × α)
  | [], k, v => [(k, v)]
  | (k2, v2) :: t, k, v =>
      if k2 = k then (k, v) :: t else (k2, v2) :: setKey t k v

/-!  ## Header normalization (`normalize_header`, lines 23-29)

The source:
```
def normalize_header(header):
    if not header:
        return ""
    header = unicodedata.normalize("NFKD", header).encode("ascii", "ignore").decode("ascii")
    return header.strip().lower().replace(" ", "_")
```
-/

/-- NFKD decomposition of one character, modelled from the Unicode
Character Database as `unicodedata.normalize("NFKD", ·)` applies it.
Characters without a decomposition mapping — all of ASCII, and notably
U+0131 LATIN SMALL LETTER DOTLESS I (`ı`), which has no decomposition —
map to themselves.  The table lists the decomposable letters exercised in
this development (base letter followed by a combining mark). -/
def nfkdChar (c : Char) : List Char :=
  if c = 'é' then ['e', '́']        -- U+00E9 → e + combining acute
  else if c = 'ö' then ['o', '̈']   -- U+00F6 → o + combining diaeresis
  else if c = 'ü' then ['u', '̈']   -- U+00FC → u + combining diaeresis
  else if c = 'ç' then ['c', '̧']   -- U+00E7 → c + combining cedilla
  else if c = 'ş' then ['s', '̧']   -- U+015F → s + combining cedilla
  else if c = 'ğ' then ['g', '̆']   -- U+011F → g + combining breve
  else if c = 'İ' then ['I', '̇']   -- U+0130 → I + combining dot above
  else [c]                               -- no decomposition (includes ı, U+0131)

/-- `unicodedata.normalize("NFKD", s)` on a whole string. -/
def nfkdStr (s : String) : String := String.mk (s.data.flatMap nfkdChar)

/-- `s.encode("ascii", "ignore").decode("ascii")`: drop every character
outside the ASCII range. -/
def encodeAsciiIgnore (s : String) : String :=
  String.mk (s.data.filter (fun c => c.toNat ≤ 127))

/-- The whitespace characters `str.strip()` removes, restricted to the
ASCII ones: exact for the header pipeline (whose input is already
ASCII-filtered) and for every value exercised in this development. -/
def isPySpace (c : Char) : Bool :=
  c = ' ' || c = '\t' || c = '\n' || c = '\r' || c = '\x0b' || c = '\x0c'

/-- Drop leading and trailing whitespace from a character list. -/
def trimWs (l : List Char) : List Char :=
  ((l.dropWhile isPySpace).reverse.dropWhile isPySpace).reverse

/-- `str.strip()`: drop leading and trailing whitespace. -/
def pyStrip (s : String) : String := String.mk (trimWs s.data)

/-- `str.lower()` (the input here is ASCII-only). -/
def pyLower (s : String) : String := String.mk (s.data.map Char.toLower)

/-- `s.replace(" ", "_")`: the pattern is a single character, so the
replacement acts characterwise. -/
def pyReplaceSpaceUnderscore (s : String) : String :=
  String.mk (s.data.map (fun c => if c = ' ' then '_' else c))

/-- `normalize_header` (lines 23-29). -/
def normalize_header (header : String) : String :=
  if header = "" then ""
  else pyReplaceSpaceUnderscore (pyLower (pyStrip (encodeAsciiIgnore (nfkdStr header))))

/-!  ## Date helper (`format_date`, lines 35-44)

```
def format_date(value):
    try:
        if isinstance(value, str):
            return datetime.strptime(value, "%Y-%m-%d").strftime("%d/%m/%Y")
        elif isinstance(value, datetime):
            return value.strftime("%d/%m/%Y")
        else:
            return value
    except Exception:
        return str(value)
```
Note: nothing in the repository ever calls `format_date`. -/

def isLeap (y : Nat) : Bool := (y % 4 = 0 && y % 100 ≠ 0) || y % 400 = 0

def daysInMonth (y m : Nat) : Nat :=
  if m = 2 then (if isLeap y then 29 else 28)
  else if m = 4 || m = 6 || m = 9 || m = 11 then 30
  else 31

def allDigits (l : List Char) : Bool := l.all (fun c => c.isDigit)

def digitsToNat (l : List Char) : Nat :=
  l.foldl (fun acc c => acc * 10 + (c.toNat - 48)) 0

/-- `datetime.strptime(s, "%Y-%m-%d")`, modelled from the `datetime`
library: three dash-separated digit groups (`%Y` up to four digits, `%m`
and `%d` up to two), forming a valid calendar date. -/
def parseYmd (s : String) : Option (Nat × Nat × Nat) :=
  match s.data.splitOn '-' with
  | [ys, ms, ds] =>
      if allDigits ys ∧ allDigits ms ∧ allDigits ds
          ∧ ys ≠ [] ∧ ys.length ≤ 4 ∧ ms ≠ [] ∧ ms.length ≤ 2
          ∧ ds ≠ [] ∧ ds.length ≤ 2 then
        let y := digitsToNat ys
        let m := digitsToNat ms
        let d := digitsToNat ds
        if 1 ≤ y ∧ 1 ≤ m ∧ m ≤ 12 ∧ 1 ≤ d ∧ d ≤ daysInMonth y m then
          some (y, m, d)
        else none
      else none
  | _ => none

def pad2 (n : Nat) : String := if n < 10 then "0" ++ toString n else toString n

def pad4 (n : Nat) : String :=
  if n < 10 then "000" ++ toString n
  else if n < 100 then "00" ++ toString n
  else if n < 1000 then "0" ++ toString n
  else toString n

/-- `strftime("%d/%m/%Y")`. -/
def strftimeDmy (y m d : Nat) : String :=
  pad2 d ++ "/" ++ pad2 m ++ "/" ++ pad4 y

/-- `str(value)` for the values that can reach `format_date`'s except
branch or a stringified header cell. -/
def pyStr : Value → String
  | .vStr s => s
  | .vInt n => toString n
  | .vBool true => "True"
  | .vBool false => "False"
  | .vNone => "None"
  | .vDate y m d => pad4 y ++ "-" ++ pad2 m ++ "-" ++ pad2 d ++ " 00:00:00"
  | .vStrList xs =>
      "[" ++ String.intercalate ", " (xs.map (fun s => "\x27" ++ s ++ "\x27")) ++ "]"

/-- `format_date` (lines 35-44).  A string that `strptime` rejects raises,
the handler returns `str(value)` — the string itself, unmodified. -/
def format_date (v : Value) : Value :=
  match v with
  | .vStr s =>
      match parseYmd s with
      | some (y, m, d) => .vStr (strftimeDmy y m d)
      | none => .vStr s
  | .vDate y m d => .vStr (strftimeDmy y m d)
  | v => v

/-!  ## Pipeline configuration and the per-record stages

`read_data` (lines 80-109) computes once per call:
```
colmap = {normalize_header(k): v for k, v in (column_map or {}).items()}
req = tuple(normalize_header(f) for f in (required_fields or ()))
date_keys = tuple(normalize_header(f) for f in (date_fields or ()))
want_list = bool(as_list or return_dataframe)
```
`csv_encoding`, `csv_delimiter` configure the external csv parser (our
sources are already parsed), `normalize_headers` is accepted but never read
by the body, and `progress` only wraps iteration in an optional progress
bar; none of them changes the produced records.
-/

/-- The caller's `date_formatter` argument: `None`, a callable (whose
exceptions the pipeline catches), or a static dict. -/
inductive DateFormatter where
  | noFormatter : DateFormatter
  | callable : (Value → Except String Value) → DateFormatter
  | mapping : List (Value × Value) → DateFormatter

/-- Python truthiness of the `date_formatter` argument: `None` is falsy,
a function is truthy, a dict is truthy iff non-empty. -/
def dfTruthy : DateFormatter → Bool
  | .noFormatter => false
  | .callable _ => true
  | .mapping m => ¬ m.isEmpty

/-- First match in a dict used as a formatter (`row[dk] in date_formatter`
then `date_formatter[row[dk]]`). -/
def lookupPair : List (Value × Value) → Value → Option Value
  | [], _ => none
  | (k, v) :: t, x => if k = x then some v else lookupPair t x

/-- The per-call configuration after `read_data`'s entry normalization. -/
structure Cfg where
  colmap : List (String × String)
  req : List String
  date_keys : List String
  date_formatter : DateFormatter
  want_list : Bool

/-- The key a raw key is stored under (lines 122-124):
`normalize_header(str(k)) if k else ""`, then `colmap.get(new_key, new_key)`
(the `if colmap:` guard in the source is behaviour-equivalent, since `get`
on an empty map returns the default). -/
def pyKeyOf (colmap : List (String × String)) (k : String) : String :=
  let nk := if k = "" then "" else normalize_header k
  match lookupA colmap nk with
  | some d => d
  | none => nk

/-- `v.strip() if isinstance(v, str) else v` (line 125). -/
def stripValue : Value → Value
  | .vStr s => .vStr (pyStrip s)
  | v => v

/-- The date-reformatting pass of `normalize_row` (lines 126-135): only
runs when `date_formatter` is truthy and `date_keys` non-empty; for each
flagged key present with a truthy value, a callable's result replaces the
value (an exception is caught and the value kept), a dict replaces the
value only when it is a key of the dict. -/
def dateStep (cfg : Cfg) (r : Rec) (dk : String) : Rec :=
  match lookupA r dk with
  | some v =>
      if truthy v then
        match cfg.date_formatter with
        | .callable f =>
            match f v with
            | .ok v2 => setKey r dk v2
            | .error _ => r
        | .mapping m =>
            match lookupPair m v with
            | some v2 => setKey r dk v2
            | none => r
        | .noFormatter => r
      else r
  | none => r

def applyDates (cfg : Cfg) (row : Rec) : Rec :=
  if dfTruthy cfg.date_formatter ∧ ¬ cfg.date_keys.isEmpty then
    cfg.date_keys.foldl (dateStep cfg) row
  else row

/-- `normalize_row` (lines 119-136): rebuild the dict with normalized /
remapped keys and stripped string values, then reformat the date fields. -/
def normalize_row (cfg : Cfg) (raw : Rec) : Rec :=
  applyDates cfg
    (raw.foldl (fun acc kv => setKey acc (pyKeyOf cfg.colmap kv.1) (stripValue kv.2)) [])

/-- `is_valid` (lines 138-140):
`missing = [f for f in req if not row.get(f)]; return (len(missing) == 0, missing)`. -/
def is_valid (req : List String) (row : Rec) : Bool × List String :=
  let missing := req.filter (fun f => ¬ truthy ((lookupA row f).getD .vNone))
  (missing.isEmpty, missing)

/-- `record_invalid_sink` (lines 148-151): a copy of the row with the
reserved `"_errors"` key set to the reason list. -/
def sinkAugment (row : Rec) (reasons : List String) : Rec :=
  setKey row "_errors" (.vStrList reasons)

/-- The normalize → validate → (emit | sink) step every reader repeats
(e.g. lines 159-166): prepends either an emitted row or a sink entry to
the results of the rest of the iteration. -/
def pipeRecord (cfg : Cfg) (raw : Rec) (rest : List Rec × List Rec) :
    List Rec × List Rec :=
  let row := normalize_row cfg raw
  let vm := is_valid cfg.req row
  if vm.1 then (row :: rest.1, rest.2)
  else (rest.1, sinkAugment row (vm.2.map (fun m => "missing: " ++ m)) :: rest.2)

/-!  ## The four format readers (lines 153-225)

Each reader is modelled over the content the external parser delivers:
`csv.DictReader` records for `.csv`, the header row's cells and the data
rows' cells for `.xlsx`, the decoded top-level items for `.json`, and for
`.jsonl` each line's text together with what `json.loads` returns on it. -/

/-- A decoded JSON item: an object, or any other JSON value with its
Python truthiness (only truthiness and non-objectness matter downstream). -/
inductive JItem where
  | jobj : Rec → JItem
  | jother : Bool → JItem
deriving Repr

/-- One line of a `.jsonl` file: its raw text and the result of
`json.loads` on the stripped text (the external json library's answer;
unused when the stripped line is empty). -/
structure JsonlLine where
  text : String
  parsed : Except String JItem

/-- A source file as its format's parser delivers it, or a missing file. -/
inductive Source where
  | csv : List (List (String × String)) → Source
  | xlsx : List Value → List (List Value) → Source
  | json : List JItem → Source
  | jsonl : List JsonlLine → Source
  | missing : Source

/-- Blank test for a csv record (line 157): `not raw or not any(raw.values())`
— the values are strings, truthy iff non-empty. -/
def csvBlank (raw : List (String × String)) : Bool :=
  raw.isEmpty || raw.all (fun kv => kv.2 = "")

def csvToRec (raw : List (String × String)) : Rec :=
  raw.map (fun kv => (kv.1, Value.vStr kv.2))

/-- `read_csv` (lines 153-166). -/
def read_csv (cfg : Cfg) : List (List (String × String)) → List Rec × List Rec
  | [] => ([], [])
  | raw :: rest =>
      if csvBlank raw then read_csv cfg rest
      else pipeRecord cfg (csvToRec raw) (read_csv cfg rest)

/-- Header cells stringified (line 171): `"" if c.value is None else str(c.value)`. -/
def mkHeaders (cells : List Value) : List String :=
  cells.map (fun v => match v with | .vNone => "" | v => pyStr v)

/-- Blank test for a spreadsheet row (line 173): `not row_vals or not any(row_vals)`. -/
def xlsxBlank (vals : List Value) : Bool :=
  vals.isEmpty || vals.all (fun v => ¬ truthy v)

/-- `dict(zip(headers, row_vals))` (line 175): zip truncates to the
shorter sequence, duplicate headers keep the first position, last value. -/
def xlsxToRec (headers : List String) (vals : List Value) : Rec :=
  (headers.zip vals).foldl (fun acc kv => setKey acc kv.1 kv.2) []

/-- `read_xlsx`'s row loop (lines 172-183). -/
def read_xlsx_rows (cfg : Cfg) (headers : List String) :
    List (List Value) → List Rec × List Rec
  | [] => ([], [])
  | vals :: rest =>
      if xlsxBlank vals then read_xlsx_rows cfg headers rest
      else pipeRecord cfg (xlsxToRec headers vals) (read_xlsx_rows cfg headers rest)

/-- `read_xlsx` (lines 168-183). -/
def read_xlsx (cfg : Cfg) (headerCells : List Value) (rows : List (List Value)) :
    List Rec × List Rec :=
  read_xlsx_rows cfg (mkHeaders headerCells) rows

/-- Blank test for a decoded JSON item (line 190):
`not raw or (isinstance(raw, dict) and not any(raw.values()))`. -/
def jsonBlank : JItem → Bool
  | .jobj fs => fs.isEmpty || fs.all (fun kv => ¬ truthy kv.2)
  | .jother t => ¬ t

/-- `read_json`'s item loop (lines 185-202); a truthy non-dict item is
logged and skipped (lines 192-194). -/
def read_json (cfg : Cfg) : List JItem → List Rec × List Rec
  | [] => ([], [])
  | item :: rest =>
      if jsonBlank item then read_json cfg rest
      else match item with
        | .jother _ => read_json cfg rest
        | .jobj fs => pipeRecord cfg fs (read_json cfg rest)

/-- `read_jsonl` (lines 204-225): blank lines are skipped; a line that
fails to parse or parses to a non-object goes straight to the sink as
`{"_raw": line}` plus the reason, without normalization; an object goes
through the shared pipeline step. -/
def read_jsonl (cfg : Cfg) : List JsonlLine → List Rec × List Rec
  | [] => ([], [])
  | l :: rest =>
      let s := pyStrip l.text
      if s = "" then read_jsonl cfg rest
      else
        match l.parsed with
        | .error e =>
            let r := read_jsonl cfg rest
            (r.1, sinkAugment [("_raw", .vStr s)] ["json_decode:" ++ e] :: r.2)
        | .ok (.jother _) =>
            let r := read_jsonl cfg rest
            (r.1, sinkAugment [("_raw", .vStr s)] ["json_not_object"] :: r.2)
        | .ok (.jobj fs) => pipeRecord cfg fs (read_jsonl cfg rest)

/-- The reader the driver dispatches to, run on matching content. -/
def readerRun (cfg : Cfg) : Source → List Rec × List Rec
  | .csv rows => read_csv cfg rows
  | .xlsx hdr rows => read_xlsx cfg hdr rows
  | .json items => read_json cfg items
  | .jsonl lines => read_jsonl cfg lines
  | .missing => ([], [])

/-!  ## The driver `read_data` (lines 80-109 and 227-272)

The body of `read_data` contains `yield item` (line 244), so in Python the
function is a *generator function*: every call returns a generator object
at once, its body runs only as the caller iterates, and the `return
out_rows` / `return df` statements at lines 267-272 merely set the value
of the final `StopIteration`, which ordinary iteration (`for`, `list`)
discards.  `RunResult` records all of these channels separately. -/

/-- `Path(file_path).suffix`, modelled from pathlib: the final component's
last `.`-suffix when the dot is neither the first nor the last character
of the name. -/
def pySuffix (p : String) : String :=
  let name := (p.data.reverse.takeWhile (fun c => c ≠ '/')).reverse
  match name.reverse.findIdx? (fun c => c = '.') with
  | some j =>
      let i := name.length - 1 - j
      if 0 < i ∧ i < name.length - 1 then String.mk (name.drop i) else ""
  | none => ""

/-- `path.with_suffix(new)`, modelled from pathlib: replace the suffix (or
append `new` when there is none). -/
def pyWithSuffix (p : String) (new : String) : String :=
  let sfx := pySuffix p
  String.mk (p.data.take (p.data.length - sfx.data.length)) ++ new

/-- The caller-facing options of `read_data` that affect its output
(`csv_encoding` / `csv_delimiter` configure the external csv parser,
`normalize_headers` is never read by the body, `progress` only decorates
iteration; they are omitted). -/
structure Opts where
  as_list : Bool := false
  return_dataframe : Bool := false
  column_map : List (String × String) := []
  required_fields : List String := []
  date_fields : List String := []
  date_formatter : DateFormatter := .noFormatter
  invalid_sink_path : Option String := some "Errors/errors.json"

/-- Entry normalization (lines 104-108); the colmap dict comprehension
deduplicates normalized keys with later entries winning, like a dict build. -/
def mkCfg (o : Opts) : Cfg :=
  { colmap := o.column_map.foldl (fun acc kv => setKey acc (normalize_header kv.1) kv.2) []
    req := o.required_fields.map normalize_header
    date_keys := o.date_fields.map normalize_header
    date_formatter := o.date_formatter
    want_list := o.as_list || o.return_dataframe }

/-- The generator's return value (the final `StopIteration`'s payload):
`None` when the body falls off the end, the plain list for `as_list`, a
pandas DataFrame built from the materialized rows for `return_dataframe`. -/
inductive RetVal where
  | noneV : RetVal
  | pyList : List Rec → RetVal
  | dataframe : List Rec → RetVal
deriving DecidableEq, Repr

/-- A whole-file failure inside the driver's `try`: the deliberate
`ValueError` for an unrecognized suffix (line 237), `FileNotFoundError`,
or any other parse/read failure (here: content that does not parse as the
dispatched format). -/
inductive PyErr where
  | unsupported : PyErr
  | fileNotFound : PyErr
  | mismatch : PyErr
deriving DecidableEq, Repr

/-- Everything one call of `read_data` does, channel by channel.
`yields` is what iterating the returned generator delivers; `outRows` the
materialized `out_rows` list; `invalidRows` the in-memory sink;
`sinkFile` the flushed report (path, entries) or `none` when no file is
written; `retVal` the discarded generator return value; `raised` the
exception escaping the call, if any (the body catches everything, lines
246-251). -/
structure RunResult where
  yields : List Rec
  outRows : List Rec
  invalidRows : List Rec
  sinkFile : Option (String × List Rec)
  retVal : RetVal
  logs : List (String × String)
  raised : Option String

/-- Whether the dispatched reader's parser accepts the source content:
`.csv` dispatch expects csv content, and so on. -/
def dispatchOkSfx (suffix : String) : Source → Bool
  | .csv _ => suffix = ".csv"
  | .xlsx _ _ => suffix = ".xlsx"
  | .json _ => suffix = ".json"
  | .jsonl _ => suffix = ".jsonl"
  | .missing => false

def dispatchOk (path : String) (src : Source) : Bool :=
  dispatchOkSfx (pyLower (pySuffix path)) src

/-- Format dispatch and the whole-file outcome of the driver's `try`
block (lines 227-251): the dispatched reader's records, or the caught
whole-file failure. -/
def dispatchRes (cfg : Cfg) (suffix : String) (src : Source) :
    Except PyErr (List Rec × List Rec) :=
  if suffix = ".csv" ∨ suffix = ".xlsx" ∨ suffix = ".json" ∨ suffix = ".jsonl" then
    match src with
    | .missing => .error .fileNotFound
    | s => if dispatchOkSfx suffix s then .ok (readerRun cfg s) else .error .mismatch
  else .error .unsupported

/-- The whole of `read_data` (lines 80-272) over a path and the content
the file holds.  Dispatch is by lowercased suffix (lines 227-237); a
failure inside the `try` is caught and logged (lines 246-251); the sink
is flushed iff any invalid rows were recorded (lines 253-260); the final
`return` statements (lines 262-272) only set the generator's return
value. -/
def read_data (file_path : String) (o : Opts) (src : Source) : RunResult :=
  let cfg := mkCfg o
  let suffix := pyLower (pySuffix file_path)
  let res : Except PyErr (List Rec × List Rec) := dispatchRes cfg suffix src
  let emitted := match res with | .ok p => p.1 | .error _ => []
  let invalid := match res with | .ok p => p.2 | .error _ => []
  let logs : List (String × String) :=
    match res with
    | .error .unsupported =>
        [("error", "Unexpected error while reading " ++ file_path
            ++ ": Unsupported file format. Use .csv, .xlsx, .json or .jsonl")]
    | .error .fileNotFound => [("error", "File not found: " ++ file_path)]
    | .error .mismatch =>
        [("error", "Unexpected error while reading " ++ file_path ++ ": parse failure")]
    | .ok _ => []
  { yields := if cfg.want_list then [] else emitted
    outRows := if cfg.want_list then emitted else []
    invalidRows := invalid
    sinkFile :=
      if invalid.isEmpty then none
      else some ((o.invalid_sink_path.getD (pyWithSuffix file_path ".invalid.json")), invalid)
    retVal :=
      if o.return_dataframe then .dataframe (if cfg.want_list then emitted else [])
      else if o.as_list then .pyList (if cfg.want_list then emitted else [])
      else .noneV
    logs := logs
    raised := none }

/-!  ## Records that reach normalization

Per reader, the raw records that survive the reader's pre-checks (blank
skips, and for `.jsonl` the decode and object checks) and are handed to
`normalize_row` / `is_valid`. -/

def reachingSrc : Source → List Rec
  | .csv rows => (rows.filter (fun r => ¬ csvBlank r)).map csvToRec
  | .xlsx hdr rows =>
      (rows.filter (fun r => ¬ xlsxBlank r)).map (xlsxToRec (mkHeaders hdr))
  | .json items =>
      items.filterMap (fun it =>
        match it with
        | .jobj fs => if jsonBlank (.jobj fs) then none else some fs
        | .jother _ => none)
  | .jsonl lines =>
      lines.filterMap (fun l =>
        if pyStrip l.text = "" then none
        else match l.parsed with
          | .ok (.jobj fs) => some fs
          | _ => none)
  | .missing => []

/-- The iteration pattern shared by all four readers once their
pre-checks have let a record through. -/
def runRecs (cfg : Cfg) : List Rec → List Rec × List Rec
  | [] => ([], [])
  | raw :: rest => pipeRecord cfg raw (runRecs cfg rest)

/-- The sink entry a record that reaches validation and fails it produces. -/
def sinkEntryOf (cfg : Cfg) (raw : Rec) : Rec :=
  sinkAugment (normalize_row cfg raw)
    ((is_valid cfg.req (normalize_row cfg raw)).2.map (fun m => "missing: " ++ m))

/-- Header normalization as the amended spec sentence describes it:
Unicode-decompose, drop the characters outside the ASCII range, trim
surrounding whitespace, then send every character through lowercasing and
space-to-underscore replacement (one underscore per space character). -/
def specNormalizeHeader (s : String) : String :=
  if s = "" then ""
  else
    String.mk
      ((trimWs ((s.data.flatMap nfkdChar).filter (fun c => c.toNat ≤ 127))).map
        (fun c => if Char.toLower c = ' ' then '_' else Char.toLower c))

/-!  ## Concrete fixtures for witnesses and counterexamples -/

/-- Options with one required field `a`. -/
def optsReqA : Opts := { required_fields := ["a"] }

/-- Options requesting eager collection. -/
def optsAsList : Opts := { as_list := true }

/-- Options requesting a tabular structure. -/
def optsDf : Opts := { return_dataframe := true }

/-- Options of end-to-end scenario A: required name and surname, flagged
date field, no custom formatter. -/
def optsScenA : Opts := { required_fields := ["name", "surname"], date_fields := ["birth_date"] }

/-- Options with one required field `name`. -/
def optsReqName : Opts := { required_fields := ["name"] }

/-- Options with a column map whose destination is not in normalized
form, and that destination's normalized form as the required field. -/
def optsColMap : Opts :=
  { column_map := [("Adi", "Full Name")], required_fields := ["Full Name"] }

/-- Scenario A's delimited-text source: one data row and one blank row. -/
def srcScenA : Source :=
  .csv [[("Name", "Ayşe"), ("Surname", "Yılmaz"), ("Birth Date", "1990-05-01")],
        [("Name", ""), ("Surname", ""), ("Birth Date", "")]]

/-- A csv source with a single valid one-field record. -/
def srcOneName : Source := .csv [[("name", "A")]]

/-- A csv source whose single record has only an empty value. -/
def srcBlankA : Source := .csv [[("a", "")]]

/-- A jsonl source whose single non-blank line decodes to the empty
object. -/
def srcJsonlEmptyObj : Source := .jsonl [⟨"\x7b\x7d", .ok (.jobj [])⟩]

/-- A jsonl line that fails to decode. -/
def lineBadJson : JsonlLine := ⟨"\x7bbad json", .error "Expecting value"⟩

/-- A jsonl line that decodes to a non-object value. -/
def lineNotObj : JsonlLine := ⟨"[1, 2]", .ok (.jother true)⟩

/-- Scenario B's newline-delimited-JSON source: one record missing the
required surname and one malformed line. -/
def srcScenB : Source :=
  .jsonl [⟨"\x7b\"name\":\"A\"\x7d", .ok (.jobj [("name", .vStr "A")])⟩, lineBadJson]

/-- Options of end-to-end scenario B. -/
def optsScenB : Opts := { required_fields := ["name", "surname"] }

/-!  # Supporting lemmas -/

theorem lookupA_setKey_self {α : Type} (l : List (String × α)) (k : String) (v : α) :
    lookupA (setKey l k v) k = some v := by
  induction l with
  | nil => simp [setKey, lookupA]
  | cons kv t ih =>
      obtain ⟨k2, v2⟩ := kv
      by_cases h : k2 = k
      · simp [setKey, h, lookupA]
      · simp [setKey, h, lookupA, ih]

theorem setKey_keys_of_mem {α : Type} (l : List (String × α)) (k : String) (w v : α)
    (h : lookupA l k = some w) :
    (setKey l k v).map Prod.fst = l.map Prod.fst := by
  induction l with
  | nil => simp [lookupA] at h
  | cons kv t ih =>
      obtain ⟨k2, v2⟩ := kv
      by_cases hk : k2 = k
      · simp [setKey, hk]
      · simp [lookupA, hk] at h
        simp [setKey, hk, ih h]

theorem lookupA_eq_none_of_not_mem {α : Type} (l : List (String × α)) (k : String)
    (h : k ∉ l.map Prod.fst) : lookupA l k = none := by
  induction l with
  | nil => rfl
  | cons kv t ih =>
      obtain ⟨k2, v2⟩ := kv
      rw [List.map_cons, List.mem_cons] at h
      push_neg at h
      rw [lookupA, if_neg (fun hh => h.1 hh.symm)]
      exact ih h.2

theorem dateStep_keys (cfg : Cfg) (r : Rec) (dk : String) :
    (dateStep cfg r dk).map Prod.fst = r.map Prod.fst := by
  unfold dateStep
  cases hl : lookupA r dk with
  | none => rfl
  | some v =>
      by_cases ht : truthy v
      · cases hdf : cfg.date_formatter with
        | noFormatter => simp [ht]
        | callable f =>
            cases hf : f v with
            | ok v2 => simp [ht, hf, setKey_keys_of_mem r dk v v2 hl]
            | error e => simp [ht, hf]
        | mapping m =>
            cases hm : lookupPair m v with
            | some v2 => simp [ht, hm, setKey_keys_of_mem r dk v v2 hl]
            | none => simp [ht, hm]
      · simp [ht]

theorem foldl_dateStep_keys (cfg : Cfg) (ks : List String) :
    ∀ r : Rec, ((ks.foldl (dateStep cfg) r).map Prod.fst) = r.map Prod.fst := by
  induction ks with
  | nil => intro r; rfl
  | cons dk ks ih =>
      intro r
      rw [List.foldl_cons, ih (dateStep cfg r dk), dateStep_keys]

theorem applyDates_keys (cfg : Cfg) (r : Rec) :
    (applyDates cfg r).map Prod.fst = r.map Prod.fst := by
  unfold applyDates
  split
  · exact foldl_dateStep_keys cfg cfg.date_keys r
  · rfl

theorem pipeRecord_def (cfg : Cfg) (raw : Rec) (rest : List Rec × List Rec) :
    pipeRecord cfg raw rest =
      if (is_valid cfg.req (normalize_row cfg raw)).1
      then (normalize_row cfg raw :: rest.1, rest.2)
      else (rest.1, sinkEntryOf cfg raw :: rest.2) := rfl

theorem runRecs_fst (cfg : Cfg) (rs : List Rec) :
    (runRecs cfg rs).1
      = (rs.map (normalize_row cfg)).filter (fun r => (is_valid cfg.req r).1) := by
  induction rs with
  | nil => rfl
  | cons raw rest ih =>
      rw [runRecs, pipeRecord_def]
      by_cases h : (is_valid cfg.req (normalize_row cfg raw)).1
      · simp [h, ih]
      · simp [h, ih]

theorem runRecs_snd_mem (cfg : Cfg) (rs : List Rec) :
    ∀ raw ∈ rs, (is_valid cfg.req (normalize_row cfg raw)).1 = false →
      sinkEntryOf cfg raw ∈ (runRecs cfg rs).2 := by
  induction rs with
  | nil => intro raw h; simp at h
  | cons r0 rest ih =>
      intro raw hmem hbad
      rw [runRecs, pipeRecord_def]
      rcases List.mem_cons.mp hmem with heq | htail
      · subst heq
        simp [hbad]
      · by_cases h : (is_valid cfg.req (normalize_row cfg r0)).1
        · simpa [h] using ih raw htail hbad
        · simp [h]
          exact Or.inr (ih raw htail hbad)

theorem runRecs_snd_entries (cfg : Cfg) (rs : List Rec) :
    ∀ e ∈ (runRecs cfg rs).2,
      ∃ reasons, reasons ≠ [] ∧ lookupA e "_errors" = some (.vStrList reasons) := by
  induction rs with
  | nil => intro e h; simp [runRecs] at h
  | cons raw rest ih =>
      intro e he
      rw [runRecs, pipeRecord_def] at he
      by_cases h : (is_valid cfg.req (normalize_row cfg raw)).1
      · simp [h] at he
        exact ih e he
      · simp [h] at he
        rcases he with heq | htail
        · subst heq
          refine ⟨(is_valid cfg.req (normalize_row cfg raw)).2.map
              (fun m => "missing: " ++ m), ?_, ?_⟩
          · have hne : (is_valid cfg.req (normalize_row cfg raw)).2 ≠ [] := by
              intro hnil
              simp [is_valid] at h hnil
              obtain ⟨x, hx, hfx⟩ := h
              simp [hnil x hx] at hfx
            simpa using hne
          · exact lookupA_setKey_self _ _ _
        · exact ih e htail

theorem read_csv_eq (cfg : Cfg) (rows : List (List (String × String))) :
    read_csv cfg rows = runRecs cfg (reachingSrc (.csv rows)) := by
  induction rows with
  | nil => rfl
  | cons raw rest ih =>
      by_cases h : csvBlank raw
      · simp [read_csv, reachingSrc, h, List.filter_cons] at ih ⊢
        exact ih
      · simp [read_csv, reachingSrc, h, List.filter_cons, runRecs] at ih ⊢
        rw [ih]

theorem read_xlsx_rows_eq (cfg : Cfg) (hs : List String) (rows : List (List Value)) :
    read_xlsx_rows cfg hs rows
      = runRecs cfg ((rows.filter (fun r => ¬ xlsxBlank r)).map (xlsxToRec hs)) := by
  induction rows with
  | nil => rfl
  | cons vals rest ih =>
      by_cases h : xlsxBlank vals
      · simp [read_xlsx_rows, h, List.filter_cons] at ih ⊢
        exact ih
      · simp [read_xlsx_rows, h, List.filter_cons, runRecs] at ih ⊢
        rw [ih]

theorem read_xlsx_eq (cfg : Cfg) (hdr : List Value) (rows : List (List Value)) :
    read_xlsx cfg hdr rows = runRecs cfg (reachingSrc (.xlsx hdr rows)) :=
  read_xlsx_rows_eq cfg (mkHeaders hdr) rows

theorem read_json_eq (cfg : Cfg) (items : List JItem) :
    read_json cfg items = runRecs cfg (reachingSrc (.json items)) := by
  induction items with
  | nil => rfl
  | cons item rest ih =>
      cases item with
      | jobj fs =>
          by_cases h : jsonBlank (.jobj fs)
          · simp [read_json, reachingSrc, h] at ih ⊢
            exact ih
          · simp [read_json, reachingSrc, h, runRecs] at ih ⊢
            rw [ih]
      | jother t =>
          by_cases h : jsonBlank (.jother t)
          · simp [read_json, reachingSrc, h] at ih ⊢
            exact ih
          · simp [read_json, reachingSrc, h] at ih ⊢
            exact ih

theorem pipeRecord_fst (cfg : Cfg) (raw : Rec) (a b : List Rec × List Rec)
    (h : a.1 = b.1) : (pipeRecord cfg raw a).1 = (pipeRecord cfg raw b).1 := by
  rw [pipeRecord_def, pipeRecord_def]
  by_cases hv : (is_valid cfg.req (normalize_row cfg raw)).1
  · simp [hv, h]
  · simp [hv, h]

theorem read_jsonl_fst (cfg : Cfg) (ls : List JsonlLine) :
    (read_jsonl cfg ls).1 = (runRecs cfg (reachingSrc (.jsonl ls))).1 := by
  induction ls with
  | nil => rfl
  | cons l rest ih =>
      by_cases h : pyStrip l.text = ""
      · simp [read_jsonl, reachingSrc, h] at ih ⊢
        exact ih
      · cases hp : l.parsed with
        | error e =>
            simp [read_jsonl, reachingSrc, h, hp] at ih ⊢
            exact ih
        | ok item =>
            cases item with
            | jother t =>
                simp [read_jsonl, reachingSrc, h, hp] at ih ⊢
                exact ih
            | jobj fs =>
                simp [read_jsonl, reachingSrc, h, hp, runRecs] at ih ⊢
                exact pipeRecord_fst cfg fs _ _ ih

theorem read_jsonl_snd_mem (cfg : Cfg) (ls : List JsonlLine) :
    ∀ e ∈ (runRecs cfg (reachingSrc (.jsonl ls))).2, e ∈ (read_jsonl cfg ls).2 := by
  induction ls with
  | nil => intro e he; simp [reachingSrc, runRecs] at he
  | cons l rest ih =>
      intro e he
      by_cases h : pyStrip l.text = ""
      · simp [reachingSrc, h] at he ih ⊢
        simp [read_jsonl, h]
        exact ih e he
      · cases hp : l.parsed with
        | error e2 =>
            simp [reachingSrc, h, hp] at he ih ⊢
            simp [read_jsonl, h, hp]
            exact Or.inr (ih e he)
        | ok item =>
            cases item with
            | jother t =>
                simp [reachingSrc, h, hp] at he ih ⊢
                simp [read_jsonl, h, hp]
                exact Or.inr (ih e he)
            | jobj fs =>
                simp [reachingSrc, h, hp, runRecs, pipeRecord_def] at he ih ⊢
                simp [read_jsonl, h, hp, pipeRecord_def]
                by_cases hv : (is_valid cfg.req (normalize_row cfg fs)).1
                · simp [hv] at he ⊢
                  exact ih e he
                · simp [hv] at he ⊢
                  rcases he with heq | htail
                  · exact Or.inl heq
                  · exact Or.inr (ih e htail)

theorem read_jsonl_snd_entries (cfg : Cfg) (ls : List JsonlLine) :
    ∀ e ∈ (read_jsonl cfg ls).2,
      ∃ reasons, reasons ≠ [] ∧ lookupA e "_errors" = some (.vStrList reasons) := by
  induction ls with
  | nil => intro e he; simp [read_jsonl] at he
  | cons l rest ih =>
      intro e he
      by_cases h : pyStrip l.text = ""
      · simp [read_jsonl, h] at he
        exact ih e he
      · cases hp : l.parsed with
        | error e2 =>
            simp [read_jsonl, h, hp] at he
            rcases he with heq | htail
            · subst heq
              exact ⟨["json_decode:" ++ e2], by simp, lookupA_setKey_self _ _ _⟩
            · exact ih e htail
        | ok item =>
            cases item with
            | jother t =>
                simp [read_jsonl, h, hp] at he
                rcases he with heq | htail
                · subst heq
                  exact ⟨["json_not_object"], by simp, lookupA_setKey_self _ _ _⟩
                · exact ih e htail
            | jobj fs =>
                simp [read_jsonl, h, hp, pipeRecord_def] at he
                by_cases hv : (is_valid cfg.req (normalize_row cfg fs)).1
                · simp [hv] at he
                  exact ih e he
                · simp [hv] at he
                  rcases he with heq | htail
                  · subst heq
                    refine ⟨(is_valid cfg.req (normalize_row cfg fs)).2.map
                        (fun m => "missing: " ++ m), ?_, lookupA_setKey_self _ _ _⟩
                    have hne : (is_valid cfg.req (normalize_row cfg fs)).2 ≠ [] := by
                      intro hnil
                      simp [is_valid] at hv hnil
                      obtain ⟨x, hx, hfx⟩ := hv
                      simp [hnil x hx] at hfx
                    simpa using hne
                  · exact ih e htail

theorem readerRun_fst (cfg : Cfg) (src : Source) :
    (readerRun cfg src).1 = (runRecs cfg (reachingSrc src)).1 := by
  cases src with
  | csv rows => rw [readerRun, read_csv_eq]
  | xlsx hdr rows => rw [readerRun, read_xlsx_eq]
  | json items => rw [readerRun, read_json_eq]
  | jsonl ls => exact read_jsonl_fst cfg ls
  | missing => rfl

theorem readerRun_snd_mem (cfg : Cfg) (src : Source) :
    ∀ e ∈ (runRecs cfg (reachingSrc src)).2, e ∈ (readerRun cfg src).2 := by
  cases src with
  | csv rows => rw [readerRun, read_csv_eq]; exact fun e he => he
  | xlsx hdr rows => rw [readerRun, read_xlsx_eq]; exact fun e he => he
  | json items => rw [readerRun, read_json_eq]; exact fun e he => he
  | jsonl ls => exact read_jsonl_snd_mem cfg ls
  | missing => intro e he; simp [reachingSrc, runRecs] at he

theorem readerRun_snd_entries (cfg : Cfg) (src : Source) :
    ∀ e ∈ (readerRun cfg src).2,
      ∃ reasons, reasons ≠ [] ∧ lookupA e "_errors" = some (.vStrList reasons) := by
  cases src with
  | csv rows => rw [readerRun, read_csv_eq]; exact runRecs_snd_entries cfg _
  | xlsx hdr rows => rw [readerRun, read_xlsx_eq]; exact runRecs_snd_entries cfg _
  | json items => rw [readerRun, read_json_eq]; exact runRecs_snd_entries cfg _
  | jsonl ls => exact read_jsonl_snd_entries cfg ls
  | missing => intro e he; simp [readerRun] at he

theorem dispatchRes_ok (cfg : Cfg) (suffix : String) (src : Source)
    (h : dispatchOkSfx suffix src = true) :
    dispatchRes cfg suffix src = .ok (readerRun cfg src) := by
  cases src with
  | csv rows =>
      have hs : suffix = ".csv" := by simpa [dispatchOkSfx] using h
      simp [dispatchRes, hs, dispatchOkSfx]
  | xlsx hdr rows =>
      have hs : suffix = ".xlsx" := by simpa [dispatchOkSfx] using h
      simp [dispatchRes, hs, dispatchOkSfx]
  | json items =>
      have hs : suffix = ".json" := by simpa [dispatchOkSfx] using h
      simp [dispatchRes, hs, dispatchOkSfx]
  | jsonl ls =>
      have hs : suffix = ".jsonl" := by simpa [dispatchOkSfx] using h
      simp [dispatchRes, hs, dispatchOkSfx]
  | missing => simp [dispatchOkSfx] at h

theorem read_data_of_ok (o : Opts) (path : String) (src : Source)
    (h : dispatchOk path src = true) :
    read_data path o src =
      { yields := if (mkCfg o).want_list then [] else (readerRun (mkCfg o) src).1
        outRows := if (mkCfg o).want_list then (readerRun (mkCfg o) src).1 else []
        invalidRows := (readerRun (mkCfg o) src).2
        sinkFile :=
          if (readerRun (mkCfg o) src).2.isEmpty then none
          else some (o.invalid_sink_path.getD (pyWithSuffix path ".invalid.json"),
                     (readerRun (mkCfg o) src).2)
        retVal :=
          if o.return_dataframe then
            .dataframe (if (mkCfg o).want_list then (readerRun (mkCfg o) src).1 else [])
          else if o.as_list then
            .pyList (if (mkCfg o).want_list then (readerRun (mkCfg o) src).1 else [])
          else .noneV
        logs := []
        raised := none } := by
  have h2 : dispatchOkSfx (pyLower (pySuffix path)) src = true := h
  rw [read_data, dispatchRes_ok _ _ _ h2]

theorem read_data_sink_flush (path : String) (o : Opts) (src : Source) :
    (read_data path o src).sinkFile
      = if (read_data path o src).invalidRows.isEmpty then none
        else some (o.invalid_sink_path.getD (pyWithSuffix path ".invalid.json"),
                   (read_data path o src).invalidRows) := rfl

theorem read_data_invalid_entries (path : String) (o : Opts) (src : Source) :
    ∀ e ∈ (read_data path o src).invalidRows,
      ∃ reasons, reasons ≠ [] ∧ lookupA e "_errors" = some (.vStrList reasons) := by
  intro e he
  have hrw : (read_data path o src).invalidRows
      = match dispatchRes (mkCfg o) (pyLower (pySuffix path)) src with
        | .ok p => p.2
        | .error _ => [] := rfl
  rw [hrw] at he
  cases hd : dispatchRes (mkCfg o) (pyLower (pySuffix path)) src with
  | error err => rw [hd] at he; simp at he
  | ok p =>
      rw [hd] at he
      have : p = (readerRun (mkCfg o) src) ∨ p.2 = [] := by
        unfold dispatchRes at hd
        split at hd
        · split at hd
          · simp at hd
          · split at hd
            · exact Or.inl (by injection hd with h2; exact h2.symm)
            · simp at hd
        · simp at hd
      simp only [] at he
      rcases this with heq | hnil
      · subst heq
        exact readerRun_snd_entries (mkCfg o) src e he
      · rw [hnil] at he; simp at he

/-!  # Claim theorems -/

/-- C1, counterexample: a delimited-text record whose only value is empty
fails the required-field test of its canonical record (required field `a`
is empty), yet the claim's consequence fails — `read_data` neither
delivers it nor records it in the invalid sink: the reader's blank-record
pre-check (line 157) drops it before validation, so the sink stays empty
and no file is written. -/
theorem C1_blank_record_counterexample :
    is_valid (mkCfg optsReqA).req (normalize_row (mkCfg optsReqA) (csvToRec [("a", "")]))
      = (false, ["a"])
  ∧ (read_data "c.csv" optsReqA srcBlankA).yields = []
  ∧ (read_data "c.csv" optsReqA srcBlankA).outRows = []
  ∧ (read_data "c.csv" optsReqA srcBlankA).invalidRows = []
  ∧ (read_data "c.csv" optsReqA srcBlankA).sinkFile = none := by
  decide

/-- C2 (code bug): `read_data`'s body contains a `yield`, so every call
returns a generator; with `as_list=True` (or `return_dataframe=True`) the
accepted records are only appended to the internal `out_rows` list and
surface solely as the generator's return value — the payload of the final
`StopIteration`, which iteration discards — while iterating the returned
generator yields nothing.  In streaming mode (both flags false) records
are yielded one at a time as the claim says. -/
theorem C2_materialized_mode_returns_generator :
    (read_data "c.csv" optsAsList srcOneName).yields = []
  ∧ (read_data "c.csv" optsAsList srcOneName).outRows = [[("name", .vStr "A")]]
  ∧ (read_data "c.csv" optsAsList srcOneName).retVal = .pyList [[("name", .vStr "A")]]
  ∧ (read_data "c.csv" optsDf srcOneName).yields = []
  ∧ (read_data "c.csv" optsDf srcOneName).retVal = .dataframe [[("name", .vStr "A")]]
  ∧ (read_data "c.csv" { } srcOneName).yields = [[("name", .vStr "A")]] := by
  decide

/-- C3 (code bug): for a path with an unrecognized extension the driver
raises its `ValueError` inside its own `try`, where the catch-all
`except Exception` handler (line 250) swallows it: the call logs an
"Unexpected error" message and completes normally, yielding nothing and
raising nothing — no explicit configuration error is surfaced to the
caller. -/
theorem C3_unsupported_extension_swallowed :
    (read_data "client.txt" { } (.csv [])).raised = none
  ∧ (read_data "client.txt" { } (.csv [])).yields = []
  ∧ (read_data "client.txt" { } (.csv [])).outRows = []
  ∧ (read_data "client.txt" { } (.csv [])).retVal = .noneV
  ∧ (read_data "client.txt" { } (.csv [])).logs
      = [("error", "Unexpected error while reading client.txt: Unsupported file format. Use .csv, .xlsx, .json or .jsonl")] := by
  decide

/-- C4 (code bug): with `date_fields=["birth_date"]` and no custom
`date_formatter`, the scenario-A row keeps `birth_date = "1990-05-01"`
unchanged: `normalize_row` applies date formatting only when a truthy
`date_formatter` was supplied (line 126) and never falls back to the
module's `format_date` helper — which does implement the claimed default
policy (`"1990-05-01"` ↦ `"01/05/1990"`) but is called nowhere. -/
theorem C4_default_date_policy_unapplied :
    (read_data "clients.csv" optsScenA srcScenA).yields
      = [[("name", .vStr "Ayşe"), ("surname", .vStr "Yılmaz"),
          ("birth_date", .vStr "1990-05-01")]]
  ∧ (read_data "clients.csv" optsScenA srcScenA).invalidRows = []
  ∧ format_date (.vStr "1990-05-01") = .vStr "01/05/1990" := by
  decide

/-- C5, counterexample: the claimed example fails on the code —
`normalize_header "Adı Soyadı"` is `"ad_soyad"`, not `"adi_soyadi"`
(U+0131 `ı` has no NFKD decomposition, so the ASCII filter drops it) —
and a run of two spaces becomes two underscores, not one. -/
theorem C5_normalize_header_counterexample :
    normalize_header "Adı Soyadı" = "ad_soyad"
  ∧ "ad_soyad" ≠ "adi_soyadi"
  ∧ normalize_header "a  b" = "a__b"
  ∧ "a__b" ≠ "a_b" := by
  decide

/-- C6, counterexample: in the newline-delimited-JSON reader a blank
record is NOT dropped silently — the line `"\x7b\x7d"` decodes to the
entirely-empty object (blank by the other readers' own test), reaches
validation, and lands in the invalid sink tagged `missing: name`. -/
theorem C6_jsonl_blank_counterexample :
    jsonBlank (.jobj []) = true
  ∧ (read_data "x.jsonl" optsReqName srcJsonlEmptyObj).invalidRows
      = [[("_errors", .vStrList ["missing: name"])]]
  ∧ (read_data "x.jsonl" optsReqName srcJsonlEmptyObj).sinkFile
      = some ("Errors/errors.json", [[("_errors", .vStrList ["missing: name"])]]) := by
  decide

/-- C7, counterexample: the reserved field of a flushed sink entry is
named `"_errors"`, not `"errors"` as the claim states — the scenario-B
entry carries its reasons under `"_errors"` and has no `"errors"` key at
all. -/
theorem C7_errors_key_counterexample :
    (read_data "b.jsonl" optsScenB srcScenB).sinkFile
      = some ("Errors/errors.json",
          [[("name", .vStr "A"), ("_errors", .vStrList ["missing: surname"])],
           [("_raw", .vStr "\x7bbad json"),
            ("_errors", .vStrList ["json_decode:Expecting value"])]])
  ∧ lookupA [("name", Value.vStr "A"),
        ("_errors", Value.vStrList ["missing: surname"])] "errors" = none := by
  decide

theorem trimWs_subset (l : List Char) : ∀ c ∈ trimWs l, c ∈ l := by
  intro c hc
  unfold trimWs at hc
  rw [List.mem_reverse] at hc
  have h1 : c ∈ (l.dropWhile isPySpace).reverse :=
    (List.dropWhile_sublist _).subset hc
  rw [List.mem_reverse] at h1
  exact (List.dropWhile_sublist _).subset h1

theorem toLower_toNat_props (c : Char) (h : c.toNat ≤ 127) :
    (Char.toLower c).toNat ≤ 127
      ∧ ¬ (65 ≤ (Char.toLower c).toNat ∧ (Char.toLower c).toNat ≤ 90) := by
  unfold Char.toLower
  by_cases hc : c.toNat ≥ 65 ∧ c.toNat ≤ 90
  · rw [if_pos hc]
    have hv : (c.toNat + 32).isValidChar := Or.inl (by omega)
    have ht : (Char.ofNat (c.toNat + 32)).toNat = c.toNat + 32 := by
      rw [Char.ofNat, dif_pos hv]; rfl
    rw [ht]
    omega
  · rw [if_neg hc]
    omega

/-- C5 (amended): `normalize_header` is total and deterministic; empty
input yields the empty string; otherwise it equals the spec-side pipeline
(Unicode-decompose, drop the non-ASCII characters, trim, then lowercase
and turn spaces into underscores characterwise) — each space character
becomes one underscore, so a run of k spaces becomes k underscores.  The
output contains only ASCII characters (code ≤ 127), no uppercase ASCII
letter (codes 65-90) and no space; and the corrected example values are
`"Adı Soyadı" ↦ "ad_soyad"` (the dotless `ı` has no decomposition and is
dropped) and `"a  b" ↦ "a__b"`. -/
theorem C5_normalize_header_amended :
    (normalize_header "" = "")
  ∧ (∀ s : String, normalize_header s = specNormalizeHeader s)
  ∧ (∀ s : String, ∀ c ∈ (normalize_header s).data,
        c.toNat ≤ 127 ∧ ¬ (65 ≤ c.toNat ∧ c.toNat ≤ 90) ∧ c ≠ ' ')
  ∧ normalize_header "Adı Soyadı" = "ad_soyad"
  ∧ normalize_header "a  b" = "a__b" := by
  refine ⟨rfl, ?_, ?_, by decide, by decide⟩
  · intro s
    by_cases hs : s = ""
    · simp [normalize_header, specNormalizeHeader, hs]
    · simp only [normalize_header, specNormalizeHeader, hs, if_neg,
        nfkdStr, encodeAsciiIgnore, pyStrip, pyLower, pyReplaceSpaceUnderscore,
        List.map_map]
      rfl
  · intro s c hc
    by_cases hs : s = ""
    · rw [hs] at hc
      simp [normalize_header] at hc
    · simp only [normalize_header, hs, if_neg, nfkdStr, encodeAsciiIgnore,
        pyStrip, pyLower, pyReplaceSpaceUnderscore] at hc
      obtain ⟨c1, hc1, rfl⟩ := List.mem_map.mp hc
      obtain ⟨c2, hc2, rfl⟩ := List.mem_map.mp hc1
      have hc2' : c2 ∈ (s.data.flatMap nfkdChar).filter (fun c => c.toNat ≤ 127) :=
        trimWs_subset _ _ hc2
      have hle : c2.toNat ≤ 127 := by
        have := (List.mem_filter.mp hc2').2
        simpa using this
      have hp := toLower_toNat_props c2 hle
      by_cases hsp : Char.toLower c2 = ' '
      · simp [hsp]
      · rw [if_neg hsp]
        exact ⟨hp.1, hp.2, hsp⟩

/-- C1 (amended): for every record that reaches validation — i.e. every
record the dispatched reader reads that its blank-record pre-check does
not drop (for `.jsonl`, every decoded object) — `read_data` emits it
(yields it in streaming mode, appends it to the materialized collection
otherwise) iff every name in the normalized required-field set maps to a
present, truthy value in the canonical record; a reaching record failing
this test is recorded in the invalid sink and is never emitted. -/
theorem C1_accepts_iff_valid_amended (o : Opts) (path : String) (src : Source)
    (hd : dispatchOk path src = true) :
    ((read_data path o src).yields ++ (read_data path o src).outRows
        = ((reachingSrc src).map (normalize_row (mkCfg o))).filter
            (fun r => (is_valid (mkCfg o).req r).1))
  ∧ (∀ raw ∈ reachingSrc src,
        (is_valid (mkCfg o).req (normalize_row (mkCfg o) raw)).1 = false →
          sinkEntryOf (mkCfg o) raw ∈ (read_data path o src).invalidRows
          ∧ normalize_row (mkCfg o) raw
              ∉ (read_data path o src).yields ++ (read_data path o src).outRows) := by
  rw [read_data_of_ok o path src hd]
  have hfst : (readerRun (mkCfg o) src).1
      = ((reachingSrc src).map (normalize_row (mkCfg o))).filter
          (fun r => (is_valid (mkCfg o).req r).1) := by
    rw [readerRun_fst, runRecs_fst]
  constructor
  · by_cases hw : (mkCfg o).want_list
    · simpa [hw] using hfst
    · simpa [hw] using hfst
  · intro raw hmem hbad
    constructor
    · exact readerRun_snd_mem (mkCfg o) src _
        (runRecs_snd_mem (mkCfg o) (reachingSrc src) raw hmem hbad)
    · intro hin
      have hin2 : normalize_row (mkCfg o) raw ∈ (readerRun (mkCfg o) src).1 := by
        by_cases hw : (mkCfg o).want_list
        · simpa [hw] using hin
        · simpa [hw] using hin
      rw [hfst] at hin2
      have := (List.mem_filter.mp hin2).2
      rw [hbad] at this
      simp at this

/-- C1 witness: the amended statement at a concrete csv source holding
one valid record (`name` present) and one invalid record (`name` empty),
with required field `name`. -/
theorem C1_accepts_iff_valid_witness :
    ((read_data "w.csv" optsReqName (.csv [[("name", "A")], [("name", ""), ("x", "y")]])).yields
        ++ (read_data "w.csv" optsReqName (.csv [[("name", "A")], [("name", ""), ("x", "y")]])).outRows
        = ((reachingSrc (.csv [[("name", "A")], [("name", ""), ("x", "y")]])).map
            (normalize_row (mkCfg optsReqName))).filter
            (fun r => (is_valid (mkCfg optsReqName).req r).1))
  ∧ (∀ raw ∈ reachingSrc (.csv [[("name", "A")], [("name", ""), ("x", "y")]]),
        (is_valid (mkCfg optsReqName).req (normalize_row (mkCfg optsReqName) raw)).1 = false →
          sinkEntryOf (mkCfg optsReqName) raw
              ∈ (read_data "w.csv" optsReqName
                  (.csv [[("name", "A")], [("name", ""), ("x", "y")]])).invalidRows
          ∧ normalize_row (mkCfg optsReqName) raw
              ∉ (read_data "w.csv" optsReqName
                    (.csv [[("name", "A")], [("name", ""), ("x", "y")]])).yields
                ++ (read_data "w.csv" optsReqName
                    (.csv [[("name", "A")], [("name", ""), ("x", "y")]])).outRows) :=
  C1_accepts_iff_valid_amended optsReqName "w.csv"
    (.csv [[("name", "A")], [("name", ""), ("x", "y")]]) (by decide)

/-- C6 (amended): a blank record — empty, or with every value falsy — is
dropped silently before normalization in three of the four formats: the
delimited-text, spreadsheet and JSON readers skip it, so it reaches
neither the accepted output nor the invalid sink.  The
newline-delimited-JSON reader has no such pre-check: every decoded object,
blank or not, proceeds to normalization and validation. -/
theorem C6_blank_skip_amended (cfg : Cfg) :
    (∀ raw rest, csvBlank raw = true → read_csv cfg (raw :: rest) = read_csv cfg rest)
  ∧ (∀ hs vals rest, xlsxBlank vals = true →
        read_xlsx_rows cfg hs (vals :: rest) = read_xlsx_rows cfg hs rest)
  ∧ (∀ item rest, jsonBlank item = true →
        read_json cfg (item :: rest) = read_json cfg rest)
  ∧ (∀ (l : JsonlLine) rest fs, pyStrip l.text ≠ "" → l.parsed = .ok (.jobj fs) →
        read_jsonl cfg (l :: rest) = pipeRecord cfg fs (read_jsonl cfg rest)) := by
  refine ⟨?_, ?_, ?_, ?_⟩
  · intro raw rest h
    simp [read_csv, h]
  · intro hs vals rest h
    simp [read_xlsx_rows, h]
  · intro item rest h
    simp [read_json, h]
  · intro l rest fs h hp
    simp [read_jsonl, h, hp]

/-- C7 (amended): flushing after recording N rejected records writes, at
the configured destination path, a single JSON array holding exactly the
in-memory invalid list — the N augmented record copies in recording order
— and each entry carries its non-empty ordered reason list under the
reserved `"_errors"` field (not `"errors"`); recording zero rejections
writes no file. -/
theorem C7_sink_roundtrip_amended (o : Opts) (path : String) (src : Source) :
    ((read_data path o src).sinkFile = none ↔ (read_data path o src).invalidRows = [])
  ∧ ((read_data path o src).invalidRows ≠ [] →
        (read_data path o src).sinkFile
          = some (o.invalid_sink_path.getD (pyWithSuffix path ".invalid.json"),
                  (read_data path o src).invalidRows))
  ∧ (∀ e ∈ (read_data path o src).invalidRows,
        ∃ reasons, reasons ≠ [] ∧ lookupA e "_errors" = some (.vStrList reasons)) := by
  refine ⟨?_, ?_, read_data_invalid_entries path o src⟩
  · rw [read_data_sink_flush]
    by_cases h : (read_data path o src).invalidRows.isEmpty
    · simp [h]
      exact List.isEmpty_iff.mp h
    · simp [h]
      intro hc
      rw [hc] at h
      simp at h
  · intro hne
    rw [read_data_sink_flush]
    have : (read_data path o src).invalidRows.isEmpty = false := by
      cases hh : (read_data path o src).invalidRows.isEmpty
      · rfl
      · exact absurd (List.isEmpty_iff.mp hh) hne
    rw [this]
    simp

/-- C8 (confirmed): in the newline-delimited-JSON reader, a non-blank
line that fails to parse is routed directly to the invalid sink as the
raw wrapper `[("_raw", line)]` tagged `json_decode:<error>`, a line that
parses to a non-object is routed the same way tagged `json_not_object`;
neither passes through header/record normalization (the sink entry is the
untouched wrapper), and in both cases the rest of the lines are processed
exactly as they would be on their own. -/
theorem C8_jsonl_error_routing (cfg : Cfg) (l : JsonlLine) (rest : List JsonlLine)
    (hne : pyStrip l.text ≠ "") :
    (∀ e, l.parsed = .error e →
        read_jsonl cfg (l :: rest)
          = ((read_jsonl cfg rest).1,
             sinkAugment [("_raw", .vStr (pyStrip l.text))] ["json_decode:" ++ e]
               :: (read_jsonl cfg rest).2))
  ∧ (∀ t, l.parsed = .ok (.jother t) →
        read_jsonl cfg (l :: rest)
          = ((read_jsonl cfg rest).1,
             sinkAugment [("_raw", .vStr (pyStrip l.text))] ["json_not_object"]
               :: (read_jsonl cfg rest).2)) := by
  constructor
  · intro e he
    simp [read_jsonl, hne, he]
  · intro t ht
    simp [read_jsonl, hne, ht]

/-- C8 witness: the routing statement at the concrete malformed line
`"\x7bbad json"` and the concrete non-object line `"[1, 2]"`. -/
theorem C8_jsonl_error_routing_witness :
    ((∀ e, lineBadJson.parsed = .error e →
        read_jsonl (mkCfg { }) (lineBadJson :: [])
          = ((read_jsonl (mkCfg { }) []).1,
             sinkAugment [("_raw", .vStr (pyStrip lineBadJson.text))] ["json_decode:" ++ e]
               :: (read_jsonl (mkCfg { }) []).2))
      ∧ (∀ t, lineBadJson.parsed = .ok (.jother t) →
          read_jsonl (mkCfg { }) (lineBadJson :: [])
            = ((read_jsonl (mkCfg { }) []).1,
               sinkAugment [("_raw", .vStr (pyStrip lineBadJson.text))] ["json_not_object"]
                 :: (read_jsonl (mkCfg { }) []).2)))
  ∧ ((∀ e, lineNotObj.parsed = .error e →
        read_jsonl (mkCfg { }) (lineNotObj :: [])
          = ((read_jsonl (mkCfg { }) []).1,
             sinkAugment [("_raw", .vStr (pyStrip lineNotObj.text))] ["json_decode:" ++ e]
               :: (read_jsonl (mkCfg { }) []).2))
      ∧ (∀ t, lineNotObj.parsed = .ok (.jother t) →
          read_jsonl (mkCfg { }) (lineNotObj :: [])
            = ((read_jsonl (mkCfg { }) []).1,
               sinkAugment [("_raw", .vStr (pyStrip lineNotObj.text))] ["json_not_object"]
                 :: (read_jsonl (mkCfg { }) []).2))) :=
  ⟨C8_jsonl_error_routing (mkCfg { }) lineBadJson [] (by decide),
   C8_jsonl_error_routing (mkCfg { }) lineNotObj [] (by decide)⟩

/-- C9 (confirmed): for every record and supplied `required_fields`
sequence, the validator returns ok = false exactly when some normalized
required field is absent from the record or maps to a falsy value
(`row.get(f)` defaults to `None`); the returned `missing` list contains
precisely those fields' normalized names, and it is a sublist of the
normalized `required_fields` sequence — i.e. in the order the caller
supplied them, not in the record's insertion order. -/
theorem C9_validator_characterization (required_fields : List String) (row : Rec) :
    ((is_valid (required_fields.map normalize_header) row).1 = false
        ↔ ∃ f ∈ required_fields.map normalize_header,
            truthy ((lookupA row f).getD .vNone) = false)
  ∧ (∀ f, f ∈ (is_valid (required_fields.map normalize_header) row).2
        ↔ (f ∈ required_fields.map normalize_header
            ∧ truthy ((lookupA row f).getD .vNone) = false))
  ∧ List.Sublist (is_valid (required_fields.map normalize_header) row).2
      (required_fields.map normalize_header) := by
  refine ⟨?_, ?_, ?_⟩
  · simp [is_valid, List.isEmpty_iff, List.filter_eq_nil_iff]
  · intro f
    simp [is_valid, List.mem_filter]
  · exact List.filter_sublist _

/-- C10 (confirmed, implicit): `column_map` keys are header-normalized at
entry, but destination values are applied verbatim — a raw key whose
normalized form hits a `column_map` entry is stored in the canonical
record under the destination string exactly as supplied; consequently a
destination not already in normalized form never matches the normalized
required-field set, and validation reports that required field missing. -/
theorem C10_colmap_destination_verbatim (o : Opts) (k : String) (v : Value)
    (d rn : String) (hk : k ≠ "")
    (hdm : lookupA (mkCfg o).colmap (normalize_header k) = some d)
    (hr : (mkCfg o).req = [rn]) (hne : rn ≠ d) :
    ((normalize_row (mkCfg o) [(k, v)]).map Prod.fst = [d])
  ∧ is_valid (mkCfg o).req (normalize_row (mkCfg o) [(k, v)]) = (false, [rn]) := by
  have hkey : pyKeyOf (mkCfg o).colmap k = d := by
    simp [pyKeyOf, hk, hdm]
  have hrow : normalize_row (mkCfg o) [(k, v)]
      = applyDates (mkCfg o) [(d, stripValue v)] := by
    simp [normalize_row, hkey, setKey]
  have hkeys : (normalize_row (mkCfg o) [(k, v)]).map Prod.fst = [d] := by
    rw [hrow, applyDates_keys]
    rfl
  refine ⟨hkeys, ?_⟩
  have hlk : lookupA (normalize_row (mkCfg o) [(k, v)]) rn = none := by
    apply lookupA_eq_none_of_not_mem
    rw [hkeys]
    simp [hne]
  rw [hr]
  simp [is_valid, hlk, truthy]

/-- C10 witness: mapping normalized `adi` to the verbatim destination
`"Full Name"` (uppercase and a space preserved), which then fails the
required field `full_name`. -/
theorem C10_colmap_destination_verbatim_witness :
    ((normalize_row (mkCfg optsColMap) [("Adi", Value.vStr "X")]).map Prod.fst
        = ["Full Name"])
  ∧ is_valid (mkCfg optsColMap).req (normalize_row (mkCfg optsColMap) [("Adi", Value.vStr "X")])
      = (false, ["full_name"]) :=
  C10_colmap_destination_verbatim optsColMap "Adi" (Value.vStr "X") "Full Name" "full_name"
    (by decide) (by decide) (by decide) (by decide)

end ContractFiller
